import Mathlib

/-!
Verification of the EcoAgent unit-of-work lifecycle and orchestrator core.

Shallow embedding of `src/ecoagent/agents/base_agent.py` and
`src/ecoagent/agents/coordinator.py`.  Python floats are modelled as
rationals, Python dicts either as structures with `Option` fields (one
field per key the code reads or writes, `none` = key absent) or as
association lists, and Python exceptions as `Except` values whose error
component also carries the mutated state (Python mutations survive a
raise).  Wall-clock reads (`time.time()`) are modelled by an explicit
clock argument `clock : Nat → ℚ` giving the value of the k-th clock read
inside one call.
-/

namespace EcoAgent

/-- A Python exception, reduced to its message. -/
abbrev PyErr := String

/-- `AgentStatus` enum from base_agent.py. -/
inductive AgentStatus where
  | idle
  | working
  | waiting
  | error
  | completed
deriving DecidableEq, Repr

/-- The string `.value` of each `AgentStatus` member. -/
def AgentStatus.value : AgentStatus → String
  | .idle => "idle"
  | .working => "working"
  | .waiting => "waiting"
  | .error => "error"
  | .completed => "completed"

/-- A task dict.  One `Option` field per key the embedded code reads
(`task.get(...)`); `taskType` models the Python key `type`. -/
structure Task where
  id : Option String := none
  workflow_type : Option String := none
  description : Option String := none
  taskType : Option String := none
  complexity : Option String := none
  context : List (String × Option String) := []
  requirements : Option String := none
deriving DecidableEq, Repr

/-- The dict an agent `execute_task` returns: the keys the wrapper and the
orchestrator read (`success`, `cost`, `output`).  `output` stands for an
opaque payload value. -/
structure Payload where
  success : Bool
  cost : Option ℚ := none
  output : Option String := none
deriving DecidableEq, Repr

/-- One record of an agent task history (`task_record` in `_update_metrics`). -/
structure TaskRecord where
  success : Bool
  duration : ℚ
  cost : ℚ
  timestamp : ℚ
  task_id : String
deriving DecidableEq, Repr

/-- The mutable per-agent state of `BaseAgent.__init__`. -/
structure AgentState where
  name : String
  description : String := ""
  status : AgentStatus := .idle
  creation_time : ℚ := 0
  last_activity : ℚ := 0
  task_history : List TaskRecord := []
  current_task : Option Task := none
  total_tasks : Nat := 0
  successful_tasks : Nat := 0
  failed_tasks : Nat := 0
  total_cost_euros : ℚ := 0
deriving DecidableEq, Repr

/-- The three abstract methods a concrete agent implements.  `Except`
results model Python calls that may raise. -/
structure AgentBehavior where
  can_handle_task : Task → Bool
  estimate_task_cost : Task → Except PyErr ℚ
  execute_task : Task → Except PyErr Payload

/-- The dict returned by `BaseAgent.start_task` (and by
`_execute_workflow_step` when the agent is missing): one `Option` field
per key some path writes, `none` when that path leaves the key absent. -/
structure StepResult where
  success : Bool
  error : Option String := none
  agent : Option String := none
  step : Option String := none
  duration : Option ℚ := none
  estimated_cost : Option ℚ := none
  actual_cost : Option ℚ := none
  timestamp : Option ℚ := none
  output : Option String := none
  cost : Option ℚ := none
deriving DecidableEq, Repr

/-- `BaseAgent._update_metrics`.  `now` is the `time.time()` read taken
for the history record. -/
def update_metrics (success : Bool) (duration cost now : ℚ) (s : AgentState) :
    AgentState :=
  let s₁ := { s with
    total_tasks := s.total_tasks + 1,
    total_cost_euros := s.total_cost_euros + cost }
  let s₂ :=
    if success then { s₁ with successful_tasks := s₁.successful_tasks + 1 }
    else { s₁ with failed_tasks := s₁.failed_tasks + 1 }
  let record : TaskRecord :=
    { success := success, duration := duration, cost := cost, timestamp := now,
      task_id := match s₂.current_task with
        | some t => t.id.getD "unknown"
        | none => "unknown" }
  let hist := s₂.task_history ++ [record]
  { s₂ with task_history :=
      if hist.length > 100 then hist.drop (hist.length - 100) else hist }

/-- `BaseAgent.start_task`.  `clock k` is the k-th `time.time()` read of
this call (0: `task_start_time`; 1: end of `execute_task`; 2: inside
`_update_metrics`; 3: the `finally` block).  A `.error` result is a
propagated Python exception, paired with the state as mutated so far;
note the `finally` block guards only the `try`, so the early
`can_handle_task` return skips it and an `estimate_task_cost` raise
escapes with status still `working`.  The Python guard is
`if not can_handle_task: return early`; here the branches are swapped so
the main path sits in the then-branch. -/
def start_task (beh : AgentBehavior) (clock : Nat → ℚ) (task : Task)
    (s : AgentState) : Except (PyErr × AgentState) (StepResult × AgentState) :=
  let t₀ := clock 0
  let s₀ := { s with current_task := some task, status := .working,
                     last_activity := t₀ }
  if beh.can_handle_task task then
    match beh.estimate_task_cost task with
    | .error e => .error (e, s₀)
    | .ok estimated_cost =>
      match beh.execute_task task with
      | .ok result =>
        let duration := clock 1 - t₀
        let actual_cost := result.cost.getD estimated_cost
        let s₁ := update_metrics true duration actual_cost (clock 2) s₀
        let s₂ := { s₁ with status := .completed }
        let r : StepResult :=
          { success := result.success, agent := some s₂.name,
            duration := some duration, estimated_cost := some estimated_cost,
            actual_cost := some actual_cost, timestamp := some t₀,
            output := result.output, cost := result.cost }
        .ok (r, { s₂ with current_task := none, last_activity := clock 3 })
      | .error e =>
        let duration := clock 1 - t₀
        let s₁ := update_metrics false duration 0 (clock 2) s₀
        let s₂ := { s₁ with status := .error }
        let r : StepResult :=
          { success := false,
            error := some ("Erreur lors de l\x27exécution: " ++ e),
            agent := some s₂.name, duration := some duration,
            estimated_cost := some estimated_cost, actual_cost := some 0,
            timestamp := some t₀ }
        .ok (r, { s₂ with current_task := none, last_activity := clock 3 })
  else
    let s₁ := { s₀ with status := .error }
    .ok ({ success := false,
           error := some ("Agent " ++ s₁.name ++ " ne peut pas gérer cette tâche"),
           agent := some s₁.name, duration := some 0 }, s₁)

/-- Python `round(x, 1/2/4)` uses round-half-to-even; modelled exactly
over ℚ (the embedding trades float for exact rationals throughout). -/
def roundHalfEven (x : ℚ) : ℤ :=
  if x - Int.floor x < 1/2 then Int.floor x
  else if x - Int.floor x > 1/2 then Int.floor x + 1
  else if Int.floor x % 2 = 0 then Int.floor x else Int.floor x + 1

/-- Python `round(x, ndigits)` over ℚ. -/
def pyRound (ndigits : Nat) (x : ℚ) : ℚ :=
  (roundHalfEven (x * (10 : ℚ) ^ ndigits) : ℚ) / (10 : ℚ) ^ ndigits

/-- The dict returned by `get_performance_summary`, one field per key. -/
structure PerformanceSummary where
  name : String
  description : String
  status : String
  total_tasks : Nat
  successful_tasks : Nat
  failed_tasks : Nat
  success_rate_percent : ℚ
  total_cost_euros : ℚ
  average_duration_seconds : ℚ
  uptime_minutes : ℚ
deriving DecidableEq, Repr

/-- `BaseAgent.get_performance_summary`; `now` is its single
`time.time()` read. -/
def get_performance_summary (now : ℚ) (s : AgentState) : PerformanceSummary :=
  let success_rate : ℚ := ((s.successful_tasks : ℚ) / (max 1 s.total_tasks : Nat)) * 100
  let avg_duration : ℚ :=
    if s.task_history.isEmpty then 0
    else ((s.task_history.map TaskRecord.duration).sum) / (s.task_history.length : ℚ)
  { name := s.name, description := s.description, status := s.status.value,
    total_tasks := s.total_tasks, successful_tasks := s.successful_tasks,
    failed_tasks := s.failed_tasks,
    success_rate_percent := pyRound 1 success_rate,
    total_cost_euros := pyRound 4 s.total_cost_euros,
    average_duration_seconds := pyRound 2 avg_duration,
    uptime_minutes := pyRound 1 ((now - s.creation_time) / 60) }

/-! ### The orchestrator (`coordinator.py`) -/

/-- A registered agent: its behaviour plus its mutable state. -/
structure Agent where
  beh : AgentBehavior
  st : AgentState

/-- One entry of the `timeline` list built by `execute_task`; the
`timestamp` and `duration` keys come from `.get` calls and may be `None`. -/
structure TimelineEntry where
  step : String
  timestamp : Option ℚ
  duration : Option ℚ
  success : Bool
deriving DecidableEq, Repr

/-- The `workflow_result` dict of `AgentCoordinator.execute_task`. -/
structure WorkflowResult where
  success : Bool
  workflow_type : String
  steps_completed : List String
  steps_failed : List String
  total_cost : ℚ
  outputs : List (String × Option String)
  timeline : List TimelineEntry
deriving DecidableEq, Repr

/-- The two shapes `execute_task` can return: the early unknown-workflow
error dict, or a full workflow result. -/
inductive WorkflowOutcome where
  | unknown (error : String) (available_workflows : List String)
  | run (result : WorkflowResult)
deriving DecidableEq, Repr

/-- The coordinator fields `execute_task` touches (its inherited
`BaseAgent` fields are only touched through its own `start_task`). -/
structure CoordState where
  available_agents : String → Option Agent
  workflow_templates : List (String × List String)
  workflow_history : List WorkflowResult := []
  total_workflows : Nat := 0
  successful_workflows : Nat := 0

/-- Python dict lookup on an association list (insertion order kept). -/
def dictGet (k : String) : List (String × α) → Option α
  | [] => none
  | (k₁, v) :: rest => if k₁ = k then some v else dictGet k rest

/-- Python dict assignment: replace in place, else append. -/
def dictInsert (k : String) (v : α) : List (String × α) → List (String × α)
  | [] => [(k, v)]
  | (k₁, v₁) :: rest =>
      if k₁ = k then (k, v) :: rest else (k₁, v₁) :: dictInsert k v rest

/-- `_setup_default_workflows`. -/
def default_workflow_templates : List (String × List String) :=
  [("simple_task", ["analysis", "coder"]),
   ("web_app", ["analysis", "architect", "coder", "tester", "documenter"]),
   ("full_project",
     ["analysis", "architect", "coder", "reviewer", "tester", "documenter", "git"]),
   ("bug_fix", ["analysis", "coder", "tester", "reviewer"]),
   ("refactoring", ["analysis", "architect", "coder", "reviewer", "tester"]),
   ("documentation", ["analysis", "documenter"])]

/-- The `agent_task` dict built in `_execute_workflow_step` (`context`
and `previous_outputs` are the same object, the accumulated outputs). -/
def mk_agent_task (original : Task) (step : String)
    (outputs : List (String × Option String)) : Task :=
  { id := some ((original.id.getD "unknown") ++ "_" ++ step),
    taskType := some step,
    description := some (original.description.getD ""),
    context := outputs,
    requirements := original.requirements }

/-- The `step_task` dict built in `_estimate_workflow_cost`. -/
def mk_estimate_task (task : Task) (step : String) : Task :=
  { taskType := some step,
    description := some (task.description.getD ""),
    complexity := some (task.complexity.getD "medium") }

/-- `_estimate_workflow_cost`: sums the registered agents estimates; a
raising estimate propagates (no state is mutated in this phase). -/
def estimate_workflow_cost (task : Task) (reg : String → Option Agent) :
    List String → ℚ → Except PyErr ℚ
  | [], total => .ok total
  | step :: rest, total =>
    match reg step with
    | none => estimate_workflow_cost task reg rest total
    | some ag =>
      match ag.beh.estimate_task_cost (mk_estimate_task task step) with
      | .error e => .error e
      | .ok c => estimate_workflow_cost task reg rest (total + c)

/-- `_execute_workflow_step`: the unavailable-agent dict, or the agent
`start_task` result together with the updated registry; the Bool records
whether a registered unit was actually invoked. -/
def execute_workflow_step (clock : Nat → ℚ) (step : String) (original : Task)
    (outputs : List (String × Option String)) (reg : String → Option Agent) :
    Except (PyErr × (String → Option Agent))
      (StepResult × (String → Option Agent) × Bool) :=
  match reg step with
  | none =>
      .ok ({ success := false,
             error := some ("Agent \x27" ++ step ++ "\x27 non disponible"),
             step := some step }, reg, false)
  | some ag =>
    match start_task ag.beh clock (mk_agent_task original step outputs) ag.st with
    | .error (e, st₁) =>
        .error (e, fun n => if n = step then some ⟨ag.beh, st₁⟩ else reg n)
    | .ok (r, st₁) =>
        .ok (r, (fun n => if n = step then some ⟨ag.beh, st₁⟩ else reg n), true)

/-- Observational trace of one loop iteration of `execute_task`: the step
name, whether a registered unit was invoked, and the step result. -/
structure StepEvent where
  step : String
  invoked : Bool
  result : StepResult
deriving DecidableEq, Repr

/-- The step names of the critical-abort test in `execute_task`. -/
def criticalStep (step : String) : Prop :=
  step = "analysis" ∨ step = "architect"

instance : DecidablePred criticalStep := fun s => by
  unfold criticalStep; infer_instance

/-- The `for step_name in workflow_steps` loop of `execute_task`.
`clocks i` is the clock of iteration `i`.  On a critical-step failure the
`break` skips the `total_cost` addition and the `timeline` append of that
iteration.  Also returns the event trace of the iterations that ran. -/
def step_loop (clocks : Nat → Nat → ℚ) (task : Task) :
    Nat → List String → WorkflowResult → (String → Option Agent) →
    Except (PyErr × (String → Option Agent))
      (WorkflowResult × (String → Option Agent) × List StepEvent)
  | _, [], acc, reg => .ok (acc, reg, [])
  | idx, step :: rest, acc, reg =>
    match execute_workflow_step (clocks idx) step task acc.outputs reg with
    | .error (e, reg₁) => .error (e, reg₁)
    | .ok (sr, reg₁, inv) =>
      let ev : StepEvent := ⟨step, inv, sr⟩
      if sr.success then
        let acc₁ := { acc with
          steps_completed := acc.steps_completed ++ [step],
          outputs := dictInsert step sr.output acc.outputs }
        let acc₂ := { acc₁ with
          total_cost := acc₁.total_cost + sr.actual_cost.getD 0,
          timeline := acc₁.timeline ++ [⟨step, sr.timestamp, sr.duration, sr.success⟩] }
        match step_loop clocks task (idx + 1) rest acc₂ reg₁ with
        | .error e => .error e
        | .ok (wr, reg₂, evs) => .ok (wr, reg₂, ev :: evs)
      else
        let acc₁ := { acc with
          steps_failed := acc.steps_failed ++ [step], success := false }
        if criticalStep step then
          .ok (acc₁, reg₁, [ev])
        else
          let acc₂ := { acc₁ with
            total_cost := acc₁.total_cost + sr.actual_cost.getD 0,
            timeline := acc₁.timeline ++ [⟨step, sr.timestamp, sr.duration, sr.success⟩] }
          match step_loop clocks task (idx + 1) rest acc₂ reg₁ with
          | .error e => .error e
          | .ok (wr, reg₂, evs) => .ok (wr, reg₂, ev :: evs)

/-- `AgentCoordinator.execute_task`.  The cost-ceiling comparison of the
estimate only logs a warning, so only the estimate value itself is kept.
Returns the outcome, the updated coordinator state and the event trace. -/
def coordinator_execute_task (clocks : Nat → Nat → ℚ) (task : Task)
    (c : CoordState) :
    Except (PyErr × CoordState) (WorkflowOutcome × CoordState × List StepEvent) :=
  let workflow_type := task.workflow_type.getD "simple_task"
  match dictGet workflow_type c.workflow_templates with
  | none =>
      .ok (.unknown ("Type de workflow \x27" ++ workflow_type ++ "\x27 inconnu")
            (c.workflow_templates.map (fun p => p.1)), c, [])
  | some workflow_steps =>
    match estimate_workflow_cost task c.available_agents workflow_steps 0 with
    | .error e => .error (e, c)
    | .ok _total_estimated_cost =>
      let acc₀ : WorkflowResult :=
        { success := true, workflow_type := workflow_type,
          steps_completed := [], steps_failed := [], total_cost := 0,
          outputs := [], timeline := [] }
      match step_loop clocks task 0 workflow_steps acc₀ c.available_agents with
      | .error (e, reg₁) => .error (e, { c with available_agents := reg₁ })
      | .ok (wr, reg₁, evs) =>
        .ok (.run wr,
          { c with
            available_agents := reg₁,
            total_workflows := c.total_workflows + 1,
            successful_workflows :=
              c.successful_workflows + (if wr.success then 1 else 0),
            workflow_history := c.workflow_history ++ [wr] }, evs)

/-! ### Extraction helpers and concrete fixtures -/

/-- Whether an `Except` value is a normal return. -/
def isOkE : Except ε α → Bool
  | .ok _ => true
  | .error _ => false

/-- Final agent state of a `start_task` call that returned normally. -/
def okAgentState : Except (PyErr × AgentState) (StepResult × AgentState) →
    Option AgentState
  | .ok (_, s) => some s
  | .error _ => none

/-- Step result of a `start_task` call that returned normally. -/
def okStepResult : Except (PyErr × AgentState) (StepResult × AgentState) →
    Option StepResult
  | .ok (r, _) => some r
  | .error _ => none

/-- The `WorkflowResult` of an orchestrator run that returned one. -/
def runResult :
    Except (PyErr × CoordState) (WorkflowOutcome × CoordState × List StepEvent) →
    Option WorkflowResult
  | .ok (.run wr, _, _) => some wr
  | _ => none

/-- The event trace of an orchestrator run that returned normally. -/
def runEvents :
    Except (PyErr × CoordState) (WorkflowOutcome × CoordState × List StepEvent) →
    Option (List StepEvent)
  | .ok (_, _, evs) => some evs
  | .error _ => none

/-- Constant clock for concrete runs. -/
def clk0 : Nat → ℚ := fun _ => 0

/-- Constant per-iteration clocks for concrete orchestrator runs. -/
def clkk : Nat → Nat → ℚ := fun _ _ => 0

/-- A concrete task selecting the default workflow. -/
def task0 : Task := { workflow_type := some "simple_task" }

/-- A fresh concrete agent state. -/
def agentState0 : AgentState := { name := "analysis" }

/-- Concrete behaviour: handles everything, estimate 1, succeeds with
payload cost 2 and an output. -/
def behOK : AgentBehavior :=
  { can_handle_task := fun _ => true,
    estimate_task_cost := fun _ => .ok 1,
    execute_task := fun _ =>
      .ok { success := true, cost := some 2, output := some "out" } }

/-- Concrete behaviour whose cost estimate raises. -/
def behBoom : AgentBehavior :=
  { can_handle_task := fun _ => true,
    estimate_task_cost := fun _ => .error "boom",
    execute_task := fun _ => .ok { success := true } }

/-- Concrete behaviour that declines every task. -/
def behNoHandle : AgentBehavior :=
  { can_handle_task := fun _ => false,
    estimate_task_cost := fun _ => .ok 0,
    execute_task := fun _ => .ok { success := true } }

/-- Concrete behaviour whose execution raises. -/
def behExecRaise : AgentBehavior :=
  { can_handle_task := fun _ => true,
    estimate_task_cost := fun _ => .ok 3,
    execute_task := fun _ => .error "exec failed" }

/-- Concrete behaviour that returns normally with a failure payload
carrying a nonzero cost. -/
def behFail5 : AgentBehavior :=
  { can_handle_task := fun _ => true,
    estimate_task_cost := fun _ => .ok 0,
    execute_task := fun _ => .ok { success := false, cost := some 5 } }

/-- Coordinator state with the default catalog and an empty registry. -/
def csEmpty : CoordState :=
  { available_agents := fun _ => none,
    workflow_templates := default_workflow_templates }

/-! ### C1 — error wrapping of the lifecycle wrapper -/

/-- C1, counterexample: the claim says `start_task` converts every failure
mode, including a raising `estimateCost`, into a returned result with
`success=false`; but `estimate_task_cost` is called before the `try`
block, so its exception propagates to the caller. -/
theorem C1_counterexample :
    isOkE (start_task behBoom clk0 task0 agentState0) = false := rfl

/-- C1, amended: `start_task` converts a false `can_handle_task` and any
`execute_task` error into a returned result with `success=false`; only an
exception raised by `estimate_task_cost` (reached when `can_handle_task`
is true) propagates to the caller. -/
theorem C1_amended_theorem (beh : AgentBehavior) (clock : Nat → ℚ)
    (task : Task) (s : AgentState) :
    (beh.can_handle_task task = false →
      ∃ r s', start_task beh clock task s = .ok (r, s') ∧ r.success = false) ∧
    (∀ est, beh.estimate_task_cost task = .ok est →
      ∃ r s', start_task beh clock task s = .ok (r, s') ∧
        (∀ e, beh.execute_task task = .error e → r.success = false)) := by
  constructor
  · intro hc
    simp only [start_task, hc, Bool.false_eq_true, if_false]
    exact ⟨_, _, rfl, rfl⟩
  · intro est hest
    cases hc : beh.can_handle_task task with
    | false =>
      simp only [start_task, hc, Bool.false_eq_true, if_false]
      exact ⟨_, _, rfl, fun e _ => rfl⟩
    | true =>
      cases hex : beh.execute_task task with
      | ok p =>
        simp only [start_task, hc, hest, hex, if_true]
        exact ⟨_, _, rfl, fun e he => by simp [hex] at he⟩
      | error e =>
        simp only [start_task, hc, hest, hex, if_true]
        exact ⟨_, _, rfl, fun e' _ => rfl⟩

/-- C1, witness for the amended theorem at concrete inputs. -/
theorem C1_amended_witness :
    (∃ r s', start_task behNoHandle clk0 task0 agentState0 = .ok (r, s') ∧
      r.success = false) ∧
    (∃ r s', start_task behExecRaise clk0 task0 agentState0 = .ok (r, s') ∧
      (∀ e, behExecRaise.execute_task task0 = .error e → r.success = false)) :=
  ⟨(C1_amended_theorem behNoHandle clk0 task0 agentState0).1 rfl,
   (C1_amended_theorem behExecRaise clk0 task0 agentState0).2 3 rfl⟩

/-! ### C2 — status after an invocation -/

/-- C2, counterexample: the claim says the status is reset to `Idle`
before `start_task` returns; but after a successful run the status is
`Completed` (the `finally` block clears `current_task` only). -/
theorem C2_counterexample :
    (okAgentState (start_task behOK clk0 task0 agentState0)).map
        AgentState.status = some .completed ∧
    AgentStatus.completed ≠ AgentStatus.idle :=
  ⟨rfl, by decide⟩

/-- C2, amended: after every `start_task` call that returns a step result
the status is `Completed` (normal execution) or `Error` (task declined or
execution raised), never `Idle`; the status is reset to `Idle` by no path. -/
theorem C2_amended_theorem (beh : AgentBehavior) (clock : Nat → ℚ)
    (task : Task) (s : AgentState) (r : StepResult) (s' : AgentState)
    (h : start_task beh clock task s = .ok (r, s')) :
    (s'.status = .completed ∨ s'.status = .error) ∧ s'.status ≠ .idle := by
  cases hc : beh.can_handle_task task with
  | false =>
    simp [start_task, hc] at h
    obtain ⟨-, hs⟩ := h
    subst hs
    simp
  | true =>
    cases hest : beh.estimate_task_cost task with
    | error e => simp [start_task, hc, hest] at h
    | ok est =>
      cases hex : beh.execute_task task with
      | ok p =>
        simp [start_task, hc, hest, hex] at h
        obtain ⟨-, hs⟩ := h
        subst hs
        simp
      | error e =>
        simp [start_task, hc, hest, hex] at h
        obtain ⟨-, hs⟩ := h
        subst hs
        simp

/-- C2, witness for the amended theorem at a concrete input. -/
theorem C2_amended_witness :
    ∃ r s', start_task behOK clk0 task0 agentState0 = .ok (r, s') ∧
      ((s'.status = .completed ∨ s'.status = .error) ∧ s'.status ≠ .idle) := by
  refine ⟨_, _, rfl, ?_⟩
  exact C2_amended_theorem behOK clk0 task0 agentState0 _ _ rfl

/-! ### C6 — counter mutation on every invocation -/

/-- The history record `_update_metrics` builds. -/
def mkTaskRecord (b : Bool) (d c now : ℚ) (s : AgentState) : TaskRecord :=
  { success := b, duration := d, cost := c, timestamp := now,
    task_id := match s.current_task with
      | some t => t.id.getD "unknown"
      | none => "unknown" }

/-- Append to the history, then trim it to its last 100 entries. -/
def trimmedAppend (l : List TaskRecord) (r : TaskRecord) : List TaskRecord :=
  let hist := l ++ [r]
  if hist.length > 100 then hist.drop (hist.length - 100) else hist

/-- Characterization of `_update_metrics` as one record update. -/
theorem update_metrics_eq (b : Bool) (d c now : ℚ) (s : AgentState) :
    update_metrics b d c now s =
      { s with
        total_tasks := s.total_tasks + 1,
        total_cost_euros := s.total_cost_euros + c,
        successful_tasks := s.successful_tasks + (if b then 1 else 0),
        failed_tasks := s.failed_tasks + (if b then 0 else 1),
        task_history := trimmedAppend s.task_history (mkTaskRecord b d c now s) } := by
  cases b <;> rfl

theorem trimmedAppend_length (l : List TaskRecord) (r : TaskRecord) :
    (trimmedAppend l r).length = min (l.length + 1) 100 := by
  simp only [trimmedAppend]
  split
  · next hgt =>
    simp only [List.length_drop, List.length_append, List.length_cons,
      List.length_nil] at *
    omega
  · next hle =>
    simp only [List.length_append, List.length_cons, List.length_nil] at *
    omega

theorem trimmedAppend_concat (l : List TaskRecord) (r : TaskRecord) :
    ∃ pre, trimmedAppend l r = pre ++ [r] := by
  simp only [trimmedAppend]
  split
  · next hgt =>
    refine ⟨_, List.drop_append_of_le_length ?_⟩
    simp only [List.length_append, List.length_cons, List.length_nil] at hgt ⊢
    omega
  · exact ⟨l, rfl⟩

/-- C6, counterexample: the claim says the counters are mutated on every
call including the `canHandle`-false outcome; but that path returns
before `_update_metrics`, leaving `total_tasks` (and everything else)
unchanged at 0 instead of incrementing it to 1. -/
theorem C6_counterexample :
    (okAgentState (start_task behNoHandle clk0 task0 agentState0)).map
        (fun s => (s.total_tasks, s.successful_tasks, s.failed_tasks,
                   s.task_history.length)) = some (0, 0, 0, 0) ∧
    agentState0.total_tasks = 0 := ⟨rfl, rfl⟩

/-- C6, amended: on every invocation that reaches execution (task
accepted and the cost estimate returned), `total_tasks` increases by
exactly 1, exactly one of `successful_tasks` (normal `execute_task`
return) or `failed_tasks` (raise) increases by 1, and a record is
appended to the history, which is trimmed to its last 100 entries; the
`canHandle`-false path mutates no counter. -/
theorem C6_amended_theorem (beh : AgentBehavior) (clock : Nat → ℚ)
    (task : Task) (s : AgentState) (est : ℚ) (r : StepResult) (s' : AgentState)
    (hc : beh.can_handle_task task = true)
    (hest : beh.estimate_task_cost task = .ok est)
    (h : start_task beh clock task s = .ok (r, s')) :
    s'.total_tasks = s.total_tasks + 1 ∧
    ((∃ p, beh.execute_task task = .ok p) →
      s'.successful_tasks = s.successful_tasks + 1 ∧
      s'.failed_tasks = s.failed_tasks) ∧
    ((∃ e, beh.execute_task task = .error e) →
      s'.failed_tasks = s.failed_tasks + 1 ∧
      s'.successful_tasks = s.successful_tasks) ∧
    s'.task_history.length = min (s.task_history.length + 1) 100 ∧
    (∃ pre rec, s'.task_history = pre ++ [rec]) := by
  cases hex : beh.execute_task task with
  | ok p =>
    simp [start_task, hc, hest, hex] at h
    obtain ⟨-, hs⟩ := h
    subst hs
    simp only [update_metrics_eq]
    refine ⟨by simp, fun _ => ⟨by simp, by simp⟩, fun he => ?_, ?_, ?_⟩
    · obtain ⟨e, he⟩ := he
      simp [hex] at he
    · simp [trimmedAppend_length]
    · obtain ⟨pre, hpre⟩ := trimmedAppend_concat s.task_history
        (mkTaskRecord true (clock 1 - clock 0) (p.cost.getD est) (clock 2)
          { s with current_task := some task, status := .working,
                   last_activity := clock 0 })
      exact ⟨pre, _, by simpa using hpre⟩
  | error e =>
    simp [start_task, hc, hest, hex] at h
    obtain ⟨-, hs⟩ := h
    subst hs
    simp only [update_metrics_eq]
    refine ⟨by simp, fun hp => ?_, fun _ => ⟨by simp, by simp⟩, ?_, ?_⟩
    · obtain ⟨p, hp⟩ := hp
      simp [hex] at hp
    · simp [trimmedAppend_length]
    · obtain ⟨pre, hpre⟩ := trimmedAppend_concat s.task_history
        (mkTaskRecord false (clock 1 - clock 0) 0 (clock 2)
          { s with current_task := some task, status := .working,
                   last_activity := clock 0 })
      exact ⟨pre, _, by simpa using hpre⟩

/-- C6, witness for the amended theorem at a concrete input. -/
theorem C6_amended_witness :
    ∃ r s', start_task behOK clk0 task0 agentState0 = .ok (r, s') ∧
      (s'.total_tasks = agentState0.total_tasks + 1 ∧
       ((∃ p, behOK.execute_task task0 = .ok p) →
         s'.successful_tasks = agentState0.successful_tasks + 1 ∧
         s'.failed_tasks = agentState0.failed_tasks) ∧
       ((∃ e, behOK.execute_task task0 = .error e) →
         s'.failed_tasks = agentState0.failed_tasks + 1 ∧
         s'.successful_tasks = agentState0.successful_tasks) ∧
       s'.task_history.length = min (agentState0.task_history.length + 1) 100 ∧
       (∃ pre rec, s'.task_history = pre ++ [rec])) := by
  refine ⟨_, _, rfl, ?_⟩
  exact C6_amended_theorem behOK clk0 task0 agentState0 1 _ _ rfl rfl rfl

/-! ### C7 — unknown workflow name -/

/-- C7: a task whose workflow type resolves to no catalog entry makes
`execute_task` return at once a failure dict listing every known workflow
name, with no step attempted and the coordinator state untouched. -/
theorem C7_theorem (clocks : Nat → Nat → ℚ) (task : Task) (c : CoordState)
    (h : dictGet (task.workflow_type.getD "simple_task")
        c.workflow_templates = none) :
    coordinator_execute_task clocks task c =
      .ok (.unknown
            ("Type de workflow \x27" ++ task.workflow_type.getD "simple_task"
              ++ "\x27 inconnu")
            (c.workflow_templates.map (fun p => p.1)), c, []) := by
  simp [coordinator_execute_task, h]

/-- C7, witness at a concrete unknown workflow name. -/
theorem C7_witness :
    coordinator_execute_task clkk { workflow_type := some "does-not-exist" }
        csEmpty =
      .ok (.unknown "Type de workflow \x27does-not-exist\x27 inconnu"
            ["simple_task", "web_app", "full_project", "bug_fix",
             "refactoring", "documentation"], csEmpty, []) :=
  C7_theorem clkk { workflow_type := some "does-not-exist" } csEmpty rfl

/-! ### C9 — idempotence of the performance summary -/

/-- C9, counterexample: the claim says two summary calls with no
intervening invocation return identical maps including `uptime_minutes`;
but `uptime_minutes` is computed from the wall clock, so two calls one
minute apart differ. -/
theorem C9_counterexample :
    get_performance_summary 0 agentState0 ≠
      get_performance_summary 60 agentState0 ∧
    (get_performance_summary 0 agentState0).uptime_minutes = 0 ∧
    (get_performance_summary 60 agentState0).uptime_minutes = 1 := by
  have h0 : (get_performance_summary 0 agentState0).uptime_minutes = 0 := by
    norm_num [get_performance_summary, agentState0, pyRound, roundHalfEven]
  have h60 : (get_performance_summary 60 agentState0).uptime_minutes = 1 := by
    norm_num [get_performance_summary, agentState0, pyRound, roundHalfEven]
  refine ⟨fun hEq => ?_, h0, h60⟩
  rw [congrArg PerformanceSummary.uptime_minutes hEq, h60] at h0
  norm_num at h0

/-- C9, amended: the summary never mutates the unit state and is a pure
function of the state and the clock; two calls with no intervening
invocation return identical maps whenever their clock readings round to
the same tenth of a minute of uptime (every field except
`uptime_minutes` is clock-independent). -/
theorem C9_amended_theorem (s : AgentState) (t₁ t₂ : ℚ)
    (h : pyRound 1 ((t₁ - s.creation_time) / 60) =
         pyRound 1 ((t₂ - s.creation_time) / 60)) :
    get_performance_summary t₁ s = get_performance_summary t₂ s := by
  simp only [get_performance_summary]
  rw [h]

/-- C9, witness: readings at 0 and 3 seconds round to the same uptime. -/
theorem C9_amended_witness :
    pyRound 1 ((0 - agentState0.creation_time) / 60) =
      pyRound 1 ((3 - agentState0.creation_time) / 60) ∧
    get_performance_summary 0 agentState0 =
      get_performance_summary 3 agentState0 := by
  have h : pyRound 1 ((0 - agentState0.creation_time) / 60) =
      pyRound 1 ((3 - agentState0.creation_time) / 60) := by
    norm_num [agentState0, pyRound, roundHalfEven]
  exact ⟨h, C9_amended_theorem agentState0 0 3 h⟩

/-! ### C10 — the wrapper does not touch the success flag on the
success path -/

/-- The step result of the normal-return path of `start_task`. -/
def successResult (name : String) (clock : Nat → ℚ) (est : ℚ) (p : Payload) :
    StepResult :=
  { success := p.success, agent := some name,
    duration := some (clock 1 - clock 0), estimated_cost := some est,
    actual_cost := some (p.cost.getD est), timestamp := some (clock 0),
    output := p.output, cost := p.cost }

/-- Characterization of the normal-return path of `start_task`. -/
theorem start_task_ok_eq (beh : AgentBehavior) (clock : Nat → ℚ) (task : Task)
    (s : AgentState) (est : ℚ) (p : Payload)
    (hc : beh.can_handle_task task = true)
    (hest : beh.estimate_task_cost task = .ok est)
    (hex : beh.execute_task task = .ok p) :
    start_task beh clock task s =
      .ok (successResult s.name clock est p,
        { update_metrics true (clock 1 - clock 0) (p.cost.getD est) (clock 2)
            { s with current_task := some task, status := .working,
                     last_activity := clock 0 } with
          status := .completed, current_task := none,
          last_activity := clock 3 }) := by
  simp [start_task, hc, hest, hex, successResult, update_metrics_eq]

/-- Agent state fixture for the C10 scenario. -/
def stCoder : AgentState := { name := "coder" }

/-- Coordinator fixture: a one-step catalog entry whose only unit returns
a failure payload with a nonzero cost. -/
def csC10 : CoordState :=
  { available_agents := fun n =>
      if n = "coder" then some ⟨behFail5, stCoder⟩ else none,
    workflow_templates := [("wf10", ["coder"])] }

/-- Task fixture selecting the one-step workflow. -/
def taskC10 : Task := { workflow_type := some "wf10" }

/-- C10: when `execute_task` returns normally with a payload whose
`success` key is false, `start_task` still sets status `Completed`,
increments `successful_tasks` and adds the payload cost to the unit
totals, while the orchestrator records that same step in `steps_failed`;
the returned flag is exactly the payload flag. -/
theorem C10_theorem (clocks : Nat → Nat → ℚ) (orig : Task) (c : CoordState)
    (beh : AgentBehavior) (s : AgentState) (est est₂ cst : ℚ) (p : Payload)
    (hwt : dictGet (orig.workflow_type.getD "simple_task")
        c.workflow_templates = some ["coder"])
    (hreg : c.available_agents "coder" = some ⟨beh, s⟩)
    (hch : beh.can_handle_task (mk_agent_task orig "coder" []) = true)
    (hest : beh.estimate_task_cost (mk_agent_task orig "coder" []) = .ok est)
    (hest₂ : beh.estimate_task_cost (mk_estimate_task orig "coder") = .ok est₂)
    (hex : beh.execute_task (mk_agent_task orig "coder" []) = .ok p)
    (hps : p.success = false)
    (hpc : p.cost = some cst) :
    ∃ r s',
      start_task beh (clocks 0) (mk_agent_task orig "coder" []) s =
        .ok (r, s') ∧
      r.success = false ∧
      s'.status = .completed ∧
      s'.successful_tasks = s.successful_tasks + 1 ∧
      s'.failed_tasks = s.failed_tasks ∧
      s'.total_cost_euros = s.total_cost_euros + cst ∧
      (runResult (coordinator_execute_task clocks orig c)).map
          (fun wr => (wr.steps_completed, wr.steps_failed, wr.success,
            wr.total_cost)) = some ([], ["coder"], false, cst) ∧
      (runEvents (coordinator_execute_task clocks orig c)).map
          (fun evs => evs.map (fun ev => (ev.step, ev.invoked,
            ev.result.success))) = some [("coder", true, false)] := by
  have hstart := start_task_ok_eq beh (clocks 0) (mk_agent_task orig "coder" [])
    s est p hch hest hex
  refine ⟨_, _, hstart, ?_, rfl, ?_, ?_, ?_, ?_, ?_⟩
  · simp [successResult, hps]
  · simp [update_metrics_eq]
  · simp [update_metrics_eq]
  · simp [update_metrics_eq, hpc]
  · simp only [coordinator_execute_task, hwt, estimate_workflow_cost, hreg,
      hest₂, step_loop, execute_workflow_step, hstart]
    simp [runResult, successResult, hps, hpc, criticalStep]
  · simp only [coordinator_execute_task, hwt, estimate_workflow_cost, hreg,
      hest₂, step_loop, execute_workflow_step, hstart]
    simp [runEvents, successResult, hps, criticalStep]

/-- C10, witness at the concrete fixture. -/
theorem C10_witness :
    ∃ r s',
      start_task behFail5 (clkk 0) (mk_agent_task taskC10 "coder" []) stCoder =
        .ok (r, s') ∧
      r.success = false ∧
      s'.status = .completed ∧
      s'.successful_tasks = stCoder.successful_tasks + 1 ∧
      s'.failed_tasks = stCoder.failed_tasks ∧
      s'.total_cost_euros = stCoder.total_cost_euros + 5 ∧
      (runResult (coordinator_execute_task clkk taskC10 csC10)).map
          (fun wr => (wr.steps_completed, wr.steps_failed, wr.success,
            wr.total_cost)) = some ([], ["coder"], false, 5) ∧
      (runEvents (coordinator_execute_task clkk taskC10 csC10)).map
          (fun evs => evs.map (fun ev => (ev.step, ev.invoked,
            ev.result.success))) = some [("coder", true, false)] :=
  C10_theorem clkk taskC10 csC10 behFail5 stCoder 0 0 5 ⟨false, some 5, none⟩
    rfl rfl rfl rfl rfl rfl rfl rfl

/-! ### The step-loop bookkeeping invariant (shared by C3, C4, C5) -/

/-- The total of the reported actual costs of a list of step events
(`step_result.get` of the `actual_cost` key, default 0). -/
def sumCosts (evs : List StepEvent) : ℚ :=
  (evs.map (fun e => e.result.actual_cost.getD 0)).sum

/-- Bookkeeping invariant of the `for` loop of `execute_task`: the event
trace covers a front segment of the step list in order; each iteration
adds one name to `steps_completed` or `steps_failed`; the timeline and
cost accumulators record every iteration except a final critical-step
failure, whose `break` skips both. -/
theorem step_loop_spec (clocks : Nat → Nat → ℚ) (task : Task) :
    ∀ (steps : List String) (idx : Nat) (acc : WorkflowResult)
      (reg : String → Option Agent) (wr : WorkflowResult)
      (reg' : String → Option Agent) (evs : List StepEvent),
      step_loop clocks task idx steps acc reg = .ok (wr, reg', evs) →
      evs.map StepEvent.step = steps.take evs.length ∧
      wr.steps_completed.length + wr.steps_failed.length
        = acc.steps_completed.length + acc.steps_failed.length + evs.length ∧
      ((wr.timeline.map TimelineEntry.step
          = acc.timeline.map TimelineEntry.step ++ evs.map StepEvent.step ∧
        wr.total_cost = acc.total_cost + sumCosts evs) ∨
       (∃ evs₀ e, evs = evs₀ ++ [e] ∧ criticalStep e.step ∧
         e.result.success = false ∧
         wr.timeline.map TimelineEntry.step
           = acc.timeline.map TimelineEntry.step ++ evs₀.map StepEvent.step ∧
         wr.total_cost = acc.total_cost + sumCosts evs₀)) := by
  intro steps
  induction steps with
  | nil =>
    intro idx acc reg wr reg' evs h
    simp only [step_loop, Except.ok.injEq, Prod.mk.injEq] at h
    obtain ⟨hwr, -, hevs⟩ := h
    subst hwr
    subst hevs
    exact ⟨rfl, rfl, .inl ⟨by simp, by simp [sumCosts]⟩⟩
  | cons step rest ih =>
    intro idx acc reg wr reg' evs h
    cases hstep : execute_workflow_step (clocks idx) step task acc.outputs reg with
    | error e =>
      simp only [step_loop, hstep] at h
      exact absurd h (by simp)
    | ok out =>
      obtain ⟨sr, reg₁, inv⟩ := out
      simp only [step_loop, hstep] at h
      cases hs : sr.success with
      | true =>
        simp only [hs, if_true] at h
        cases hrec : step_loop clocks task (idx + 1) rest
            { acc with
              steps_completed := acc.steps_completed ++ [step],
              outputs := dictInsert step sr.output acc.outputs,
              total_cost := acc.total_cost + sr.actual_cost.getD 0,
              timeline := acc.timeline ++
                [⟨step, sr.timestamp, sr.duration, true⟩] } reg₁ with
        | error e =>
          rw [hrec] at h
          simp at h
        | ok out₂ =>
          obtain ⟨wr₂, reg₂, evs₂⟩ := out₂
          rw [hrec] at h
          simp only [Except.ok.injEq, Prod.mk.injEq] at h
          obtain ⟨hwr, -, hevs⟩ := h
          subst hwr
          subst hevs
          obtain ⟨ihA, ihB, ihC⟩ := ih (idx + 1) _ reg₁ wr₂ reg₂ evs₂ hrec
          refine ⟨?_, ?_, ?_⟩
          · simp only [List.map_cons, List.length_cons, List.take_succ_cons]
            rw [ihA]
          · simp only [List.length_append, List.length_cons, List.length_nil]
              at ihB
            simp only [List.length_cons]
            omega
          · cases ihC with
            | inl hC =>
              refine .inl ⟨?_, ?_⟩
              · rw [hC.1]
                simp
              · rw [hC.2]
                simp only [sumCosts, List.map_cons, List.sum_cons]
                ring
            | inr hC =>
              obtain ⟨evs₀, e, he, hcrit, hfail, htl, hcost⟩ := hC
              refine .inr ⟨⟨step, inv, sr⟩ :: evs₀, e,
                by rw [he, List.cons_append], hcrit, hfail, ?_, ?_⟩
              · rw [htl]
                simp
              · rw [hcost]
                simp only [sumCosts, List.map_cons, List.sum_cons]
                ring
      | false =>
        simp only [hs, Bool.false_eq_true, if_false] at h
        by_cases hcr : criticalStep step
        · rw [if_pos hcr] at h
          simp only [Except.ok.injEq, Prod.mk.injEq] at h
          obtain ⟨hwr, -, hevs⟩ := h
          subst hwr
          subst hevs
          refine ⟨by simp, ?_, .inr ⟨[], ⟨step, inv, sr⟩, rfl, hcr, hs, by simp,
            by simp [sumCosts]⟩⟩
          simp only [List.length_append, List.length_cons, List.length_nil,
            List.length_singleton]
          omega
        · rw [if_neg hcr] at h
          cases hrec : step_loop clocks task (idx + 1) rest
              { acc with
                success := false,
                steps_failed := acc.steps_failed ++ [step],
                total_cost := acc.total_cost + sr.actual_cost.getD 0,
                timeline := acc.timeline ++
                  [⟨step, sr.timestamp, sr.duration, false⟩] } reg₁ with
          | error e =>
            rw [hrec] at h
            simp at h
          | ok out₂ =>
            obtain ⟨wr₂, reg₂, evs₂⟩ := out₂
            rw [hrec] at h
            simp only [Except.ok.injEq, Prod.mk.injEq] at h
            obtain ⟨hwr, -, hevs⟩ := h
            subst hwr
            subst hevs
            obtain ⟨ihA, ihB, ihC⟩ := ih (idx + 1) _ reg₁ wr₂ reg₂ evs₂ hrec
            refine ⟨?_, ?_, ?_⟩
            · simp only [List.map_cons, List.length_cons, List.take_succ_cons]
              rw [ihA]
            · simp only [List.length_append, List.length_cons, List.length_nil]
                at ihB
              simp only [List.length_cons]
              omega
            · cases ihC with
              | inl hC =>
                refine .inl ⟨?_, ?_⟩
                · rw [hC.1]
                  simp
                · rw [hC.2]
                  simp only [sumCosts, List.map_cons, List.sum_cons]
                  ring
              | inr hC =>
                obtain ⟨evs₀, e, he, hcrit, hfail, htl, hcost⟩ := hC
                refine .inr ⟨⟨step, inv, sr⟩ :: evs₀, e,
                  by rw [he, List.cons_append], hcrit, hfail, ?_, ?_⟩
                · rw [htl]
                  simp
                · rw [hcost]
                  simp only [sumCosts, List.map_cons, List.sum_cons]
                  ring

/-- Inversion of a workflow run that returned a full result: the catalog
lookup succeeded, the step loop ran from the fresh accumulator, and the
final state appends the result to the history and bumps the counters. -/
theorem coordinator_run_inversion (clocks : Nat → Nat → ℚ) (task : Task)
    (c : CoordState) (wr : WorkflowResult) (c' : CoordState)
    (evs : List StepEvent)
    (h : coordinator_execute_task clocks task c = .ok (.run wr, c', evs)) :
    ∃ steps reg',
      dictGet (task.workflow_type.getD "simple_task") c.workflow_templates
        = some steps ∧
      step_loop clocks task 0 steps
        { success := true,
          workflow_type := task.workflow_type.getD "simple_task",
          steps_completed := [], steps_failed := [], total_cost := 0,
          outputs := [], timeline := [] } c.available_agents
        = .ok (wr, reg', evs) ∧
      c' = { c with
             available_agents := reg',
             total_workflows := c.total_workflows + 1,
             successful_workflows :=
               c.successful_workflows + (if wr.success then 1 else 0),
             workflow_history := c.workflow_history ++ [wr] } := by
  cases hT : dictGet (task.workflow_type.getD "simple_task")
      c.workflow_templates with
  | none =>
    simp only [coordinator_execute_task, hT] at h
    exact absurd h (by simp)
  | some steps =>
    cases hest : estimate_workflow_cost task c.available_agents steps 0 with
    | error e =>
      simp only [coordinator_execute_task, hT, hest] at h
      exact absurd h (by simp)
    | ok tot =>
      cases hloop : step_loop clocks task 0 steps
          { success := true,
            workflow_type := task.workflow_type.getD "simple_task",
            steps_completed := [], steps_failed := [], total_cost := 0,
            outputs := [], timeline := [] } c.available_agents with
      | error e =>
        simp only [coordinator_execute_task, hT, hest, hloop] at h
        exact absurd h (by simp)
      | ok out =>
        obtain ⟨wr₂, reg₂, evs₂⟩ := out
        simp only [coordinator_execute_task, hT, hest, hloop,
          Except.ok.injEq, Prod.mk.injEq] at h
        obtain ⟨hrun, hc', hevs⟩ := h
        cases hrun
        subst hevs
        exact ⟨steps, reg₂, rfl, hloop, hc'.symm⟩

/-! ### C3 — timeline length and order -/

/-- The workflow result of a run with the default catalog and an empty
registry: the first step `analysis` is unavailable, hence failed, hence
critical, so the run aborts with an empty timeline. -/
def wrMissing : WorkflowResult :=
  { success := false, workflow_type := "simple_task", steps_completed := [],
    steps_failed := ["analysis"], total_cost := 0, outputs := [],
    timeline := [] }

/-- C3, counterexample: the claim includes critical-failure runs, but in
such a run the `break` skips the timeline append, so the aborting step is
in `steps_failed` with no timeline entry: 0 entries against 0 completed
plus 1 failed. -/
theorem C3_counterexample :
    runResult (coordinator_execute_task clkk task0 csEmpty) =
      some wrMissing ∧
    wrMissing.timeline.length = 0 ∧
    wrMissing.steps_completed.length + wrMissing.steps_failed.length = 1 ∧
    (0 : Nat) ≠ 1 := ⟨rfl, rfl, rfl, by decide⟩

/-- C3, amended: in every run returning a full result,
`len(steps_completed) + len(steps_failed) = number of attempted steps`;
the timeline has one entry per attempted step except that a run aborted
by a critical-step failure gives the aborting step no entry (one fewer);
timeline names follow workflow-definition order. -/
theorem C3_amended_theorem (clocks : Nat → Nat → ℚ) (task : Task)
    (c : CoordState) (steps : List String) (wr : WorkflowResult)
    (c' : CoordState) (evs : List StepEvent)
    (hT : dictGet (task.workflow_type.getD "simple_task")
        c.workflow_templates = some steps)
    (h : coordinator_execute_task clocks task c = .ok (.run wr, c', evs)) :
    wr.steps_completed.length + wr.steps_failed.length = evs.length ∧
    (wr.timeline.length = evs.length ∨
      (wr.timeline.length + 1 = evs.length ∧
        ∃ evs₀ e, evs = evs₀ ++ [e] ∧ criticalStep e.step ∧
          e.result.success = false)) ∧
    wr.timeline.map TimelineEntry.step = steps.take wr.timeline.length := by
  obtain ⟨steps₂, reg', hT₂, hloop, -⟩ :=
    coordinator_run_inversion clocks task c wr c' evs h
  rw [hT] at hT₂
  obtain rfl : steps = steps₂ := Option.some.inj hT₂
  obtain ⟨hA, hB, hC⟩ := step_loop_spec clocks task steps 0 _
    c.available_agents wr reg' evs hloop
  simp only [List.length_nil, Nat.zero_add] at hB
  cases hC with
  | inl hC =>
    obtain ⟨htl, -⟩ := hC
    simp only [List.map_nil, List.nil_append] at htl
    have hlen := congrArg List.length htl
    simp only [List.length_map] at hlen
    refine ⟨hB, .inl hlen, ?_⟩
    rw [htl, hA, hlen]
  | inr hC =>
    obtain ⟨evs₀, e, he, hcrit, hfail, htl, -⟩ := hC
    subst he
    simp only [List.map_nil, List.nil_append] at htl
    have hlen := congrArg List.length htl
    simp only [List.length_map] at hlen
    refine ⟨hB, .inr ⟨?_, evs₀, e, rfl, hcrit, hfail⟩, ?_⟩
    · simp only [List.length_append, List.length_cons, List.length_nil]
      omega
    · rw [htl, hlen]
      have h1 : List.map StepEvent.step evs₀
          = (List.map StepEvent.step evs₀ ++ [e.step]).take evs₀.length := by
        have h2 := List.take_left (List.map StepEvent.step evs₀) [e.step]
        rw [List.length_map] at h2
        exact h2.symm
      have hA' : List.map StepEvent.step evs₀ ++ [e.step]
          = steps.take (evs₀.length + 1) := by simpa using hA
      rw [h1, hA', List.take_take]
      congr 1
      omega

/-- C3, witness: a non-critical failure run (the C10 fixture): one failed
step, one timeline entry, order preserved. -/
theorem C3_amended_witness :
    ∃ wr c' evs,
      coordinator_execute_task clkk taskC10 csC10 = .ok (.run wr, c', evs) ∧
      (wr.steps_completed.length + wr.steps_failed.length = evs.length ∧
       (wr.timeline.length = evs.length ∨
         (wr.timeline.length + 1 = evs.length ∧
           ∃ evs₀ e, evs = evs₀ ++ [e] ∧ criticalStep e.step ∧
             e.result.success = false)) ∧
       wr.timeline.map TimelineEntry.step
         = (["coder"] : List String).take wr.timeline.length) := by
  refine ⟨_, _, _, rfl, ?_⟩
  exact C3_amended_theorem clkk taskC10 csC10 ["coder"] _ _ _ rfl rfl

/-! ### C4 — critical-step abort -/

/-- C4: if the first step of the resolved workflow is critical and its
invocation returns a failed step result, the run returns with no step
completed, only that step failed, empty outputs, overall failure, and no
later unit is invoked (the event trace has exactly that one invocation). -/
theorem C4_theorem (clocks : Nat → Nat → ℚ) (task : Task) (c : CoordState)
    (a : String) (rest : List String) (ag : Agent) (r : StepResult)
    (st₁ : AgentState) (est : ℚ)
    (hT : dictGet (task.workflow_type.getD "simple_task")
        c.workflow_templates = some (a :: rest))
    (hcrit : criticalStep a)
    (hreg : c.available_agents a = some ag)
    (hest : estimate_workflow_cost task c.available_agents (a :: rest) 0
        = .ok est)
    (hfail : start_task ag.beh (clocks 0) (mk_agent_task task a []) ag.st
        = .ok (r, st₁))
    (hr : r.success = false) :
    runResult (coordinator_execute_task clocks task c) =
      some { success := false,
             workflow_type := task.workflow_type.getD "simple_task",
             steps_completed := [], steps_failed := [a], total_cost := 0,
             outputs := [], timeline := [] } ∧
    runEvents (coordinator_execute_task clocks task c) =
      some [⟨a, true, r⟩] := by
  constructor
  · simp only [coordinator_execute_task, hT, hest, step_loop,
      execute_workflow_step, hreg, hfail, hr, Bool.false_eq_true, if_false]
    simp [runResult, hcrit]
  · simp only [coordinator_execute_task, hT, hest, step_loop,
      execute_workflow_step, hreg, hfail, hr, Bool.false_eq_true, if_false]
    simp [runEvents, hcrit]

/-- Registry fixture for C4: only `analysis` is registered and its
execution raises. -/
def csC4 : CoordState :=
  { available_agents := fun n =>
      if n = "analysis" then some ⟨behExecRaise, agentState0⟩ else none,
    workflow_templates := default_workflow_templates }

/-- C4, witness at the concrete fixture. -/
theorem C4_witness :
    ∃ r st₁,
      start_task behExecRaise (clkk 0) (mk_agent_task task0 "analysis" [])
        agentState0 = .ok (r, st₁) ∧
      r.success = false ∧
      (runResult (coordinator_execute_task clkk task0 csC4) =
        some { success := false, workflow_type := "simple_task",
               steps_completed := [], steps_failed := ["analysis"],
               total_cost := 0, outputs := [], timeline := [] } ∧
      runEvents (coordinator_execute_task clkk task0 csC4) =
        some [⟨"analysis", true, r⟩]) := by
  refine ⟨_, _, rfl, by rfl, ?_⟩
  refine C4_theorem clkk task0 csC4 "analysis" ["coder"]
    ⟨behExecRaise, agentState0⟩ _ _ 3 (by rfl) (Or.inl rfl) (by rfl) ?_
    rfl (by rfl)
  simp [estimate_workflow_cost, csC4, behExecRaise, mk_estimate_task]

/-! ### C5 — total cost accounting -/

/-- Registry fixture for C5: `analysis` succeeds with cost 2, `coder`
returns a failure payload with cost 5. -/
def cs5 : CoordState :=
  { available_agents := fun n =>
      if n = "analysis" then some ⟨behOK, agentState0⟩
      else if n = "coder" then some ⟨behFail5, stCoder⟩
      else none,
    workflow_templates := default_workflow_templates }

/-- C5, counterexample: the claim says failed steps contribute zero to
`total_cost`; but a step whose unit returns a failure payload carrying a
cost is recorded in `steps_failed` with that nonzero reported actual
cost, and the code adds it: the run totals 7, not the 2 the claim
predicts. -/
theorem C5_counterexample :
    (runResult (coordinator_execute_task clkk task0 cs5)).map
        (fun wr => (wr.total_cost, wr.steps_completed, wr.steps_failed)) =
      some (7, ["analysis"], ["coder"]) ∧
    (runEvents (coordinator_execute_task clkk task0 cs5)).map
        (fun evs => evs.map (fun ev =>
          (ev.step, ev.result.actual_cost.getD 0))) =
      some [("analysis", 2), ("coder", 5)] ∧
    (7 : ℚ) ≠ 2 := by
  refine ⟨?_, ?_, by norm_num⟩
  · simp [runResult, runEvents, coordinator_execute_task, cs5, task0,
      dictGet, default_workflow_templates, estimate_workflow_cost,
      mk_estimate_task, mk_agent_task, step_loop, execute_workflow_step,
      start_task, update_metrics_eq, trimmedAppend, mkTaskRecord, behOK,
      behFail5, agentState0, stCoder, clkk, criticalStep, dictInsert,
      successResult]
    norm_num
  · simp [runResult, runEvents, coordinator_execute_task, cs5, task0,
      dictGet, default_workflow_templates, estimate_workflow_cost,
      mk_estimate_task, mk_agent_task, step_loop, execute_workflow_step,
      start_task, update_metrics_eq, trimmedAppend, mkTaskRecord, behOK,
      behFail5, agentState0, stCoder, clkk, criticalStep, dictInsert,
      successResult]

/-- C5, amended: `total_cost` is the sum of the reported actual costs
(zero when the step result lacks one) of all attempted steps, except
that a critical-step failure aborts the loop before adding its own cost;
failed steps contribute whatever actual cost their step result reports,
which can be nonzero. -/
theorem C5_amended_theorem (clocks : Nat → Nat → ℚ) (task : Task)
    (c : CoordState) (wr : WorkflowResult) (c' : CoordState)
    (evs : List StepEvent)
    (h : coordinator_execute_task clocks task c = .ok (.run wr, c', evs)) :
    wr.total_cost = sumCosts evs ∨
    (∃ evs₀ e, evs = evs₀ ++ [e] ∧ criticalStep e.step ∧
      e.result.success = false ∧ wr.total_cost = sumCosts evs₀) := by
  obtain ⟨steps, reg', hT, hloop, -⟩ :=
    coordinator_run_inversion clocks task c wr c' evs h
  obtain ⟨-, -, hC⟩ := step_loop_spec clocks task steps 0 _
    c.available_agents wr reg' evs hloop
  cases hC with
  | inl hC =>
    left
    have := hC.2
    simpa using this
  | inr hC =>
    obtain ⟨evs₀, e, he, hcrit, hfail, -, hcost⟩ := hC
    right
    exact ⟨evs₀, e, he, hcrit, hfail, by simpa using hcost⟩

/-- C5, witness at the concrete two-step fixture. -/
theorem C5_amended_witness :
    ∃ wr c' evs,
      coordinator_execute_task clkk task0 cs5 = .ok (.run wr, c', evs) ∧
      (wr.total_cost = sumCosts evs ∨
       (∃ evs₀ e, evs = evs₀ ++ [e] ∧ criticalStep e.step ∧
         e.result.success = false ∧ wr.total_cost = sumCosts evs₀)) := by
  refine ⟨_, _, _, rfl, ?_⟩
  exact C5_amended_theorem clkk task0 cs5 _ _ _ rfl

/-! ### C8 — growth of the workflow history -/

/-- One orchestrator run of the fixed demo task, keeping the state. -/
def runOnce (c : CoordState) : CoordState :=
  match coordinator_execute_task clkk task0 c with
  | .ok (_, c₁, _) => c₁
  | .error (_, c₁) => c₁

/-- Successive runs from the empty-registry initial state. -/
def runMany : Nat → CoordState
  | 0 => csEmpty
  | n + 1 => runOnce (runMany n)

theorem runOnce_spec (c : CoordState)
    (hT : c.workflow_templates = default_workflow_templates)
    (hA : c.available_agents = fun _ => none) :
    (runOnce c).workflow_history = c.workflow_history ++ [wrMissing] ∧
    (runOnce c).workflow_templates = default_workflow_templates ∧
    (runOnce c).available_agents = fun _ => none := by
  obtain ⟨agents, templates, hist, tw, sw⟩ := c
  simp only [CoordState.mk.injEq] at hT hA
  subst hT
  subst hA
  refine ⟨?_, ?_, ?_⟩ <;>
    simp [runOnce, coordinator_execute_task, dictGet,
      default_workflow_templates, task0, estimate_workflow_cost, step_loop,
      execute_workflow_step, criticalStep, clkk, wrMissing]

theorem runMany_facts (n : Nat) :
    (runMany n).workflow_history.length = n ∧
    (runMany n).workflow_templates = default_workflow_templates ∧
    (runMany n).available_agents = fun _ => none := by
  induction n with
  | zero => exact ⟨rfl, rfl, rfl⟩
  | succ n ih =>
    obtain ⟨h1, h2, h3⟩ := ih
    obtain ⟨g1, g2, g3⟩ := runOnce_spec (runMany n) h2 h3
    refine ⟨?_, g2, g3⟩
    have : runMany (n + 1) = runOnce (runMany n) := rfl
    rw [this, g1, List.length_append, h1]
    rfl

/-- C8, counterexample: the claim says the workflow history length never
exceeds a fixed capacity; but no trimming exists: each run appends one
entry, so after 101 runs from the initial state the history holds 101
entries, already past the only fixed cap in the code (the 100-entry
per-unit history), and one more than after 100 runs — the same argument
exceeds any candidate capacity. -/
theorem C8_counterexample :
    (runMany 101).workflow_history.length = 101 ∧
    (runMany 100).workflow_history.length = 100 ∧
    100 < (runMany 101).workflow_history.length := by
  refine ⟨(runMany_facts 101).1, (runMany_facts 100).1, ?_⟩
  rw [(runMany_facts 101).1]
  omega

/-- C8, amended: every run that returns a full result appends exactly one
entry to `workflow_history` and never evicts old entries, so the log
grows without bound (only the per-unit task history is capped, at 100). -/
theorem C8_amended_theorem (clocks : Nat → Nat → ℚ) (task : Task)
    (c : CoordState) (wr : WorkflowResult) (c' : CoordState)
    (evs : List StepEvent)
    (h : coordinator_execute_task clocks task c = .ok (.run wr, c', evs)) :
    c'.workflow_history = c.workflow_history ++ [wr] := by
  obtain ⟨steps, reg', -, -, hc'⟩ :=
    coordinator_run_inversion clocks task c wr c' evs h
  rw [hc']

/-- C8, witness at the concrete empty-registry run. -/
theorem C8_amended_witness :
    ∃ wr c' evs,
      coordinator_execute_task clkk task0 csEmpty = .ok (.run wr, c', evs) ∧
      c'.workflow_history = csEmpty.workflow_history ++ [wr] := by
  refine ⟨_, _, _, rfl, ?_⟩
  exact C8_amended_theorem clkk task0 csEmpty _ _ _ rfl

end EcoAgent
